import Mathlib

/-!
Shallow embedding of the sidebar menu selection and bulk-deletion workflow of
`app/components/sidebar/Menu.client.tsx` (bolt.diy fork).

The React component state is modelled explicitly: the selection set is a
`List String` (JS array of ids), selection mode a `Bool`, the last-loaded
entry list a `List ChatHistoryItem`, and the pending confirmation dialog an
`Option DialogContent`.  Side effects (toasts, `localStorage.removeItem`,
`deleteById` store calls, `loadEntries` reloads, navigation to root) are
recorded as an event trace.  Failures of the external world are supplied by
oracles: `removeErr id` says whether removing the snapshot side-cache entry
for `id` throws, `deleteErr id` whether `deleteById` rejects for `id`.
-/

/-- An entry of the chat history list, as used by the menu component
(`ChatHistoryItem` from the persistence layer; `urlId` and `description`
are optional and JS-truthiness-checked by `loadEntries`). -/
structure ChatHistoryItem where
  id : String
  urlId : Option String
  description : Option String
  timestamp : String
deriving DecidableEq, Repr

/-- The four toast kinds used by the component (react-toastify). -/
inductive Toast where
  | success (msg : String)
  | error (msg : String)
  | warning (msg : String)
  | info (msg : String)
deriving DecidableEq, Repr

/-- The `DialogContent` union type of the component: `null` is modelled by
wrapping in `Option` at use sites. -/
inductive DialogContent where
  | delete (item : ChatHistoryItem)
  | bulkDelete (items : List ChatHistoryItem)
deriving DecidableEq, Repr

/-- Observable side effects of the workflow, in issue order. -/
inductive Event where
  | localRemove (key : String)
  | logError (id : String)
  | storeDelete (id : String)
  | toast (t : Toast)
  | reload
  | navigateRoot
deriving DecidableEq, Repr

/-- JS truthiness of an optional string (`undefined` and `""` are falsy). -/
def truthy : Option String → Bool
  | none => false
  | some s => s ≠ ""

/-- The list the component displays after `loadEntries`: the store contents
filtered by `item.urlId && item.description`. -/
def loadEntriesView (store : List ChatHistoryItem) : List ChatHistoryItem :=
  store.filter (fun item => truthy item.urlId && truthy item.description)

/-- `deleteChat(id)`: throws if the db is unavailable; otherwise best-effort
removes the `snapshot:` side-cache key (a failure is logged and swallowed),
then issues `deleteById`.  Returns the event trace of the attempt and whether
the promise resolved (`true`) or rejected (`false`). -/
def deleteChat (dbAvailable : Bool) (removeErr deleteErr : String → Bool)
    (id : String) : List Event × Bool :=
  if dbAvailable then
    (Event.localRemove ("snapshot:" ++ id) ::
       (if removeErr id then [Event.logError id] else []) ++
       [Event.storeDelete id],
     !deleteErr id)
  else
    ([], false)

/-- `deleteItem(event, item)`: single-item delete.  On resolution: success
toast, reload, and navigation to root when the deleted id is the active chat.
On rejection (including db unavailable): error toast and a reload anyway. -/
def deleteItem (dbAvailable : Bool) (removeErr deleteErr : String → Bool)
    (currentChatId : Option String) (item : ChatHistoryItem) : List Event :=
  let r := deleteChat dbAvailable removeErr deleteErr item.id
  if r.2 then
    r.1 ++ [Event.toast (Toast.success "Chat deleted successfully"), Event.reload] ++
      (if currentChatId = some item.id then [Event.navigateRoot] else [])
  else
    r.1 ++ [Event.toast (Toast.error "Failed to delete conversation"), Event.reload]

/-- One iteration of the `for (const id of itemsToDeleteIds)` loop of
`deleteSelectedItems`: the accumulator is
(events so far, deletedCount, errors, shouldNavigate). -/
def bulkStep (dbAvailable : Bool) (removeErr deleteErr : String → Bool)
    (currentChatId : Option String)
    (acc : List Event × Nat × List String × Bool) (id : String) :
    List Event × Nat × List String × Bool :=
  let r := deleteChat dbAvailable removeErr deleteErr id
  if r.2 then
    (acc.1 ++ r.1, acc.2.1 + 1, acc.2.2.1,
     acc.2.2.2 || decide (some id = currentChatId))
  else
    (acc.1 ++ r.1, acc.2.1, acc.2.2.1 ++ [id], acc.2.2.2)

/-- Result of `deleteSelectedItems`: the event trace plus the component state
it leaves behind (`selectedItems`, `selectionMode`). -/
structure BulkResult where
  events : List Event
  selectedItems : List String
  selectionMode : Bool
deriving DecidableEq, Repr

/-- `deleteSelectedItems(itemsToDeleteIds)`: early return when the db is
unavailable or the id list is empty; otherwise sequentially attempts
`deleteChat` per id (failures recorded, loop continues), then issues the
aggregate toast (success or warning), reloads, clears the selection and
exits selection mode, and finally navigates to root when the active chat
was among the successfully deleted ids. -/
def deleteSelectedItems (dbAvailable : Bool) (removeErr deleteErr : String → Bool)
    (currentChatId : Option String) (itemsToDeleteIds : List String)
    (preSelectedItems : List String) (preSelectionMode : Bool) : BulkResult :=
  if dbAvailable = false ∨ itemsToDeleteIds.length = 0 then
    ⟨[], preSelectedItems, preSelectionMode⟩
  else
    let r := itemsToDeleteIds.foldl
      (bulkStep dbAvailable removeErr deleteErr currentChatId) ([], 0, [], false)
    let deletedCount := r.2.1
    let errors := r.2.2.1
    let shouldNavigate := r.2.2.2
    let t :=
      if errors.length = 0 then
        Toast.success (toString deletedCount ++ " chat" ++
          (if deletedCount = 1 then "" else "s") ++ " deleted successfully")
      else
        Toast.warning ("Deleted " ++ toString deletedCount ++ " of " ++
          toString itemsToDeleteIds.length ++ " chats. " ++
          toString errors.length ++ " failed.")
    ⟨r.1 ++ [Event.toast t, Event.reload] ++
       (if shouldNavigate then [Event.navigateRoot] else []),
     [], false⟩

/-- `toggleSelectionMode()`: flips the mode; when leaving selection mode the
selection set is cleared.  Returns (new mode, new selection set). -/
def toggleSelectionMode (selectionMode : Bool) (selectedItems : List String) :
    Bool × List String :=
  (!selectionMode, if selectionMode then [] else selectedItems)

/-- `toggleItemSelection(id)`: remove `id` when present, append it otherwise. -/
def toggleItemSelection (id : String) (prev : List String) : List String :=
  if prev.contains id then prev.filter (fun itemId => itemId ≠ id) else prev ++ [id]

/-- First-occurrence deduplication, the semantics of iterating a JS
`new Set([...])` built from a list. -/
def jsSetDedupAux (seen : List String) : List String → List String
  | [] => []
  | x :: xs =>
    if x ∈ seen then jsSetDedupAux seen xs else x :: jsSetDedupAux (x :: seen) xs

/-- The list produced by `[...new Set(l)]` in JS. -/
def jsSetDedup (l : List String) : List String :=
  jsSetDedupAux [] l

/-- The `allFilteredIds` local of `selectAll`: ids of the currently visible
(filtered) entries. -/
def allFilteredIds (filteredList : List ChatHistoryItem) : List String :=
  filteredList.map (fun item => item.id)

/-- `selectAll()`: scoped to the currently filtered list.  If every visible id
is already selected (and there is at least one), deselect all visible ids;
otherwise union the visible ids into the selection (`[...new Set([...])]`). -/
def selectAll (filteredList : List ChatHistoryItem) (prev : List String) :
    List String :=
  if (allFilteredIds filteredList).length > 0 &&
      (allFilteredIds filteredList).all (fun id => prev.contains id) then
    prev.filter (fun id => !(allFilteredIds filteredList).contains id)
  else
    jsSetDedup (prev ++ allFilteredIds filteredList)

/-- `handleBulkDeleteClick()`: empty selection gives an info toast and no
dialog; a selection resolving to no entries of the last-loaded list gives an
error toast and no dialog; otherwise the resolved entries are snapshotted
into a bulk-delete pending confirmation.  Returns (events, dialog set). -/
def handleBulkDeleteClick (selectedItems : List String)
    (list : List ChatHistoryItem) : List Event × Option DialogContent :=
  if selectedItems.length = 0 then
    ([Event.toast (Toast.info "Select at least one chat to delete")], none)
  else
    let selectedChats := list.filter (fun item => selectedItems.contains item.id)
    if selectedChats.length = 0 then
      ([Event.toast (Toast.error "Could not find selected chats")], none)
    else
      ([], some (DialogContent.bulkDelete selectedChats))

/-- The bulk-delete dialog confirm button handler:
`deleteSelectedItems([...selectedItems]); closeDialog();` — it submits a copy
of the live `selectedItems` state and ignores the snapshot held in the
pending confirmation (`pendingItems`).  Returns the bulk result and the
dialog state after `closeDialog`. -/
def bulkDeleteDialogConfirm (dbAvailable : Bool) (removeErr deleteErr : String → Bool)
    (currentChatId : Option String) (selectedItems : List String)
    (selectionMode : Bool) (pendingItems : List ChatHistoryItem) :
    BulkResult × Option DialogContent :=
  (deleteSelectedItems dbAvailable removeErr deleteErr currentChatId
     selectedItems selectedItems selectionMode, none)

/-- The ids for which a `deleteById` store call was issued, in order. -/
def storeDeleteIds : List Event → List String
  | [] => []
  | Event.storeDelete id :: rest => id :: storeDeleteIds rest
  | _ :: rest => storeDeleteIds rest

/-- Whether an event is a success toast. -/
def isSuccessToast : Event → Bool
  | Event.toast (Toast.success _) => true
  | _ => false

/-- Whether an event is an error toast. -/
def isErrorToast : Event → Bool
  | Event.toast (Toast.error _) => true
  | _ => false

/-- Whether an event is a navigation to root. -/
def isNavigate : Event → Bool
  | Event.navigateRoot => true
  | _ => false

/-- Replay of the display-state effect of a trace: `reload` replaces the
displayed list by the store view; all other events leave it unchanged. -/
def applyEvents (store : List ChatHistoryItem) (disp : List ChatHistoryItem) :
    List Event → List ChatHistoryItem
  | [] => disp
  | Event.reload :: rest => applyEvents store (loadEntriesView store) rest
  | Event.localRemove _ :: rest => applyEvents store disp rest
  | Event.logError _ :: rest => applyEvents store disp rest
  | Event.storeDelete _ :: rest => applyEvents store disp rest
  | Event.toast _ :: rest => applyEvents store disp rest
  | Event.navigateRoot :: rest => applyEvents store disp rest

/-- Reachability of a selection-set value through the component's selection
operations, starting from the initial empty selection. -/
inductive SelReachable : List String → Prop where
  | init : SelReachable []
  | toggleItem (id : String) (s : List String) :
      SelReachable s → SelReachable (toggleItemSelection id s)
  | selAll (fl : List ChatHistoryItem) (s : List String) :
      SelReachable s → SelReachable (selectAll fl s)
  | toggleMode (mode : Bool) (s : List String) :
      SelReachable s → SelReachable (toggleSelectionMode mode s).2
  | bulkDone (dbAvailable : Bool) (removeErr deleteErr : String → Bool)
      (currentChatId : Option String) (ids : List String) (mode : Bool)
      (s : List String) : SelReachable s →
      SelReachable (deleteSelectedItems dbAvailable removeErr deleteErr
        currentChatId ids s mode).selectedItems

/-- The concatenated per-id traces of the bulk-delete loop. -/
def chatTraces (re de : String → Bool) : List String → List Event
  | [] => []
  | id :: rest => (deleteChat true re de id).1 ++ chatTraces re de rest

/-- The aggregate toast issued by `deleteSelectedItems` (success when every
id deleted, warning otherwise). -/
def bulkToast (de : String → Bool) (ids : List String) : Toast :=
  if (ids.filter de).length = 0 then
    Toast.success (toString (ids.countP (fun id => !de id)) ++ " chat" ++
      (if ids.countP (fun id => !de id) = 1 then "" else "s") ++
      " deleted successfully")
  else
    Toast.warning ("Deleted " ++ toString (ids.countP (fun id => !de id)) ++
      " of " ++ toString ids.length ++ " chats. " ++
      toString (ids.filter de).length ++ " failed.")

/-- A sample resolvable entry used in concrete instantiations. -/
def itemA : ChatHistoryItem := ⟨"a", some "url-a", some "chat a", "2024-01-01"⟩


lemma mem_jsSetDedupAux (a : String) (l : List String) :
    ∀ seen, a ∈ jsSetDedupAux seen l ↔ a ∈ l ∧ a ∉ seen := by
  induction l with
  | nil => intro seen; simp [jsSetDedupAux]
  | cons x xs ih =>
    intro seen
    simp only [jsSetDedupAux]
    by_cases hx : x ∈ seen
    · rw [if_pos hx]
      constructor
      · intro h
        obtain ⟨hm, hs⟩ := (ih seen).mp h
        exact ⟨List.mem_cons_of_mem _ hm, hs⟩
      · rintro ⟨hm, hs⟩
        rcases List.mem_cons.mp hm with rfl | h2
        · exact absurd hx hs
        · exact (ih seen).mpr ⟨h2, hs⟩
    · rw [if_neg hx]
      constructor
      · intro h
        rcases List.mem_cons.mp h with rfl | h2
        · exact ⟨List.mem_cons_self _ _, hx⟩
        · obtain ⟨hm, hs⟩ := (ih (x :: seen)).mp h2
          exact ⟨List.mem_cons_of_mem _ hm, fun hc => hs (List.mem_cons_of_mem _ hc)⟩
      · rintro ⟨hm, hs⟩
        rcases List.mem_cons.mp hm with rfl | h2
        · exact List.mem_cons_self _ _
        · by_cases hax : a = x
          · subst hax; exact List.mem_cons_self _ _
          · refine List.mem_cons_of_mem _ ((ih (x :: seen)).mpr ⟨h2, fun hc => ?_⟩)
            exact (List.mem_cons.mp hc).elim hax hs

lemma nodup_jsSetDedupAux (l : List String) :
    ∀ seen, (jsSetDedupAux seen l).Nodup := by
  induction l with
  | nil => intro seen; simp [jsSetDedupAux]
  | cons x xs ih =>
    intro seen
    simp only [jsSetDedupAux]
    by_cases hx : x ∈ seen
    · rw [if_pos hx]; exact ih seen
    · rw [if_neg hx]
      refine List.nodup_cons.mpr ⟨fun hc => ?_, ih _⟩
      exact ((mem_jsSetDedupAux x xs _).mp hc).2 (List.mem_cons_self _ _)

lemma mem_jsSetDedup (a : String) (l : List String) :
    a ∈ jsSetDedup l ↔ a ∈ l := by
  simp [jsSetDedup, mem_jsSetDedupAux]

lemma nodup_jsSetDedup (l : List String) : (jsSetDedup l).Nodup :=
  nodup_jsSetDedupAux l []

lemma jsSetDedupAux_eq_of_nodup (l : List String) :
    ∀ seen, l.Nodup → (∀ x ∈ l, x ∉ seen) → jsSetDedupAux seen l = l := by
  induction l with
  | nil => intro seen _ _; rfl
  | cons x xs ih =>
    intro seen hnd hdisj
    have hx : x ∉ seen := hdisj x (List.mem_cons_self _ _)
    simp only [jsSetDedupAux, if_neg hx]
    rw [ih (x :: seen) (List.nodup_cons.mp hnd).2]
    intro y hy hc
    rcases List.mem_cons.mp hc with rfl | hc2
    · exact (List.nodup_cons.mp hnd).1 hy
    · exact hdisj y (List.mem_cons_of_mem _ hy) hc2

lemma jsSetDedup_eq_of_nodup (l : List String) (h : l.Nodup) :
    jsSetDedup l = l :=
  jsSetDedupAux_eq_of_nodup l [] h (by simp)

lemma selectAll_cond_iff (filteredList : List ChatHistoryItem) (prev : List String) :
    ((allFilteredIds filteredList).length > 0 &&
      (allFilteredIds filteredList).all (fun id => prev.contains id)) = true ↔
    (allFilteredIds filteredList ≠ [] ∧ ∀ id ∈ allFilteredIds filteredList, id ∈ prev) := by
  simp [List.length_pos, List.all_eq_true]

/-- Claim C2: for every selection set and visible (filtered) id set,
`selectAll` yields the difference when the visible ids are non-empty and all
already selected, and the union otherwise (preserving selected ids that are
not visible); with an empty visible set the selection is unchanged. -/
theorem selectAll_spec (filteredList : List ChatHistoryItem) (prev : List String) :
    ((allFilteredIds filteredList ≠ [] ∧
        ∀ id ∈ allFilteredIds filteredList, id ∈ prev) →
      ∀ x, x ∈ selectAll filteredList prev ↔
        (x ∈ prev ∧ x ∉ allFilteredIds filteredList)) ∧
    (¬(allFilteredIds filteredList ≠ [] ∧
        ∀ id ∈ allFilteredIds filteredList, id ∈ prev) →
      ∀ x, x ∈ selectAll filteredList prev ↔
        (x ∈ prev ∨ x ∈ allFilteredIds filteredList)) ∧
    (filteredList = [] → prev.Nodup → selectAll filteredList prev = prev) := by
  refine ⟨?_, ?_, ?_⟩
  · intro hc x
    have hb := (selectAll_cond_iff filteredList prev).mpr hc
    unfold selectAll
    rw [if_pos hb]
    simp [List.mem_filter]
  · intro hneg x
    cases hb : ((allFilteredIds filteredList).length > 0 &&
        (allFilteredIds filteredList).all (fun id => prev.contains id)) with
    | true => exact absurd ((selectAll_cond_iff filteredList prev).mp hb) hneg
    | false =>
      unfold selectAll
      rw [if_neg (by rw [hb]; simp)]
      rw [mem_jsSetDedup]
      simp
  · intro hfl hnd
    subst hfl
    unfold selectAll
    rw [if_neg (by simp [allFilteredIds])]
    simp only [allFilteredIds, List.map_nil, List.append_nil]
    exact jsSetDedup_eq_of_nodup prev hnd

theorem selectAll_spec_witness :
    "b" ∈ selectAll [⟨"a", some "u", some "d", "t"⟩] ["a", "b"] ∧
    "a" ∉ selectAll [⟨"a", some "u", some "d", "t"⟩] ["a", "b"] := by
  have h := (selectAll_spec [⟨"a", some "u", some "d", "t"⟩] ["a", "b"]).1
    (by constructor
        · decide
        · intro id hid
          fin_cases hid
          decide)
  constructor
  · exact (h "b").mpr (by decide)
  · intro hc
    exact ((h "a").mp hc).2 (by decide)

/-- Claim C3: toggling selection mode while it is on turns it off and clears
the selection set; toggling while it is off turns it on and leaves the
selection set unchanged. -/
theorem toggleSelectionMode_spec (mode : Bool) (sel : List String) :
    (mode = true → toggleSelectionMode mode sel = (false, [])) ∧
    (mode = false → toggleSelectionMode mode sel = (true, sel)) := by
  cases mode <;> simp [toggleSelectionMode]

theorem toggleSelectionMode_spec_witness :
    toggleSelectionMode true ["a"] = (false, []) ∧
    toggleSelectionMode false ["a"] = (true, ["a"]) :=
  ⟨(toggleSelectionMode_spec true ["a"]).1 rfl,
   (toggleSelectionMode_spec false ["a"]).2 rfl⟩

lemma toggleItemSelection_mem (id : String) (l : List String) (x : String) :
    x ∈ toggleItemSelection id l ↔ (if x = id then id ∉ l else x ∈ l) := by
  unfold toggleItemSelection
  by_cases hl : id ∈ l
  · rw [if_pos (by simpa using hl)]
    by_cases hx : x = id
    · subst hx; simp [List.mem_filter, hl]
    · simp [List.mem_filter, hx]
  · rw [if_neg (by simpa using hl)]
    by_cases hx : x = id
    · subst hx; simp [hl]
    · simp [hx]

/-- Claim C4: `toggleItemSelection(id)` removes `id` from the selection set
when present and adds it otherwise, for arbitrary identifiers (no validation
against the visible list); membership alternates, and two consecutive calls
with the same id leave the selection set (as a set) unchanged. -/
theorem toggleItemSelection_spec (id : String) (prev : List String) :
    (∀ x, x ∈ toggleItemSelection id prev ↔
      (if x = id then id ∉ prev else x ∈ prev)) ∧
    (∀ x, x ∈ toggleItemSelection id (toggleItemSelection id prev) ↔ x ∈ prev) := by
  refine ⟨toggleItemSelection_mem id prev, fun x => ?_⟩
  rw [toggleItemSelection_mem id _ x]
  by_cases hx : x = id
  · subst hx
    rw [if_pos rfl]
    have h1 : x ∈ toggleItemSelection x prev ↔ x ∉ prev := by
      rw [toggleItemSelection_mem x prev x, if_pos rfl]
    simp [h1]
  · rw [if_neg hx, toggleItemSelection_mem id prev x, if_neg hx]

lemma nodup_toggleItemSelection (id : String) (prev : List String)
    (h : prev.Nodup) : (toggleItemSelection id prev).Nodup := by
  unfold toggleItemSelection
  by_cases hl : id ∈ prev
  · rw [if_pos (by simpa using hl)]
    exact h.filter _
  · rw [if_neg (by simpa using hl)]
    refine List.nodup_append.mpr ⟨h, List.nodup_singleton _, ?_⟩
    intro a ha hb
    rw [List.mem_singleton] at hb
    subst hb
    exact hl ha

lemma nodup_selectAll (fl : List ChatHistoryItem) (prev : List String)
    (h : prev.Nodup) : (selectAll fl prev).Nodup := by
  unfold selectAll
  split
  · exact h.filter _
  · exact nodup_jsSetDedup _

/-- Claim C10: every selection-set value reachable through the component's
selection operations (starting from the empty selection) is duplicate-free. -/
theorem selection_set_nodup (s : List String) (h : SelReachable s) :
    s.Nodup := by
  induction h with
  | init => exact List.nodup_nil
  | toggleItem id s _ ih => exact nodup_toggleItemSelection id s ih
  | selAll fl s _ ih => exact nodup_selectAll fl s ih
  | toggleMode mode s _ ih =>
    simp only [toggleSelectionMode]
    split
    · exact List.nodup_nil
    · exact ih
  | bulkDone db re de cur ids mode s _ ih =>
    simp only [deleteSelectedItems]
    split
    · exact ih
    · exact List.nodup_nil

theorem selection_set_nodup_witness :
    SelReachable (toggleItemSelection "a" []) ∧
    (toggleItemSelection "a" []).Nodup :=
  ⟨SelReachable.toggleItem "a" [] SelReachable.init,
   selection_set_nodup (toggleItemSelection "a" [])
     (SelReachable.toggleItem "a" [] SelReachable.init)⟩

lemma storeDeleteIds_append (l1 l2 : List Event) :
    storeDeleteIds (l1 ++ l2) = storeDeleteIds l1 ++ storeDeleteIds l2 := by
  induction l1 with
  | nil => rfl
  | cons e rest ih => cases e <;> simp [storeDeleteIds, ih]

lemma deleteChat_events_shape (re de : String → Bool) (id : String) :
    ∀ e ∈ (deleteChat true re de id).1,
      (∃ k, e = Event.localRemove k) ∨ (∃ j, e = Event.logError j) ∨
        (∃ j, e = Event.storeDelete j) := by
  intro e he
  cases hr : re id <;> simp [deleteChat, hr] at he
  · rcases he with rfl | rfl
    · exact Or.inl ⟨_, rfl⟩
    · exact Or.inr (Or.inr ⟨_, rfl⟩)
  · rcases he with rfl | rfl | rfl
    · exact Or.inl ⟨_, rfl⟩
    · exact Or.inr (Or.inl ⟨_, rfl⟩)
    · exact Or.inr (Or.inr ⟨_, rfl⟩)

lemma storeDelete_mem_deleteChat (re de : String → Bool) (id : String) :
    Event.storeDelete id ∈ (deleteChat true re de id).1 := by
  cases hr : re id <;> simp [deleteChat, hr]

lemma storeDeleteIds_deleteChat (re de : String → Bool) (id : String) :
    storeDeleteIds (deleteChat true re de id).1 = [id] := by
  cases hr : re id <;> simp [deleteChat, hr, storeDeleteIds]

lemma deleteChat_snd (re de : String → Bool) (id : String) :
    (deleteChat true re de id).2 = !de id := by
  simp [deleteChat]

lemma storeDeleteIds_chatTraces (re de : String → Bool) (ids : List String) :
    storeDeleteIds (chatTraces re de ids) = ids := by
  induction ids with
  | nil => rfl
  | cons x xs ih =>
    simp [chatTraces, storeDeleteIds_append, storeDeleteIds_deleteChat, ih]

lemma storeDelete_mem_chatTraces (re de : String → Bool) (ids : List String)
    (id : String) (h : id ∈ ids) :
    Event.storeDelete id ∈ chatTraces re de ids := by
  induction ids with
  | nil => cases h
  | cons x xs ih =>
    rcases List.mem_cons.mp h with rfl | h2
    · exact List.mem_append_left _ (storeDelete_mem_deleteChat re de id)
    · exact List.mem_append_right _ (ih h2)

lemma chatTraces_shape (re de : String → Bool) (ids : List String) :
    ∀ e ∈ chatTraces re de ids,
      (∃ k, e = Event.localRemove k) ∨ (∃ j, e = Event.logError j) ∨
        (∃ j, e = Event.storeDelete j) := by
  induction ids with
  | nil => intro e he; cases he
  | cons x xs ih =>
    intro e he
    rcases List.mem_append.mp he with h1 | h2
    · exact deleteChat_events_shape re de x e h1
    · exact ih e h2

lemma bulkFold_spec (re de : String → Bool) (cur : Option String) (ids : List String) :
    ∀ (evs0 : List Event) (dc0 : Nat) (errs0 : List String) (nav0 : Bool),
    ids.foldl (bulkStep true re de cur) (evs0, dc0, errs0, nav0) =
      (evs0 ++ chatTraces re de ids,
       dc0 + ids.countP (fun id => !de id),
       errs0 ++ ids.filter de,
       nav0 || ids.any (fun id => !de id && decide (some id = cur))) := by
  induction ids with
  | nil => intro evs0 dc0 errs0 nav0; simp [chatTraces]
  | cons x xs ih =>
    intro evs0 dc0 errs0 nav0
    rw [List.foldl_cons]
    cases hx : de x with
    | false =>
      have hstep : bulkStep true re de cur (evs0, dc0, errs0, nav0) x =
          (evs0 ++ (deleteChat true re de x).1, dc0 + 1, errs0,
           nav0 || decide (some x = cur)) := by
        simp [bulkStep, deleteChat_snd, hx]
      rw [hstep, ih]
      simp only [Prod.mk.injEq]
      refine ⟨by simp [chatTraces], ?_, ?_, ?_⟩
      · rw [List.countP_cons]
        simp [hx]
        omega
      · simp [List.filter_cons, hx]
      · simp [List.any_cons, hx, Bool.or_assoc]
    | true =>
      have hstep : bulkStep true re de cur (evs0, dc0, errs0, nav0) x =
          (evs0 ++ (deleteChat true re de x).1, dc0, errs0 ++ [x], nav0) := by
        simp [bulkStep, deleteChat_snd, hx]
      rw [hstep, ih]
      simp only [Prod.mk.injEq]
      refine ⟨by simp [chatTraces], ?_, ?_, ?_⟩
      · rw [List.countP_cons]
        simp [hx]
      · simp [List.filter_cons, hx]
      · simp [List.any_cons, hx]

lemma deleteSelectedItems_eq (re de : String → Bool) (cur : Option String)
    (ids preSel : List String) (preMode : Bool) (hne : ids ≠ []) :
    deleteSelectedItems true re de cur ids preSel preMode =
      ⟨chatTraces re de ids ++ [Event.toast (bulkToast de ids), Event.reload] ++
         (if ids.any (fun id => !de id && decide (some id = cur)) then
            [Event.navigateRoot] else []),
       [], false⟩ := by
  have hguard : ¬(true = false ∨ ids.length = 0) := by
    simp [List.length_eq_zero, hne]
  simp only [deleteSelectedItems]
  rw [if_neg hguard, bulkFold_spec re de cur ids [] 0 [] false]
  simp [bulkToast]

lemma chatTraces_not_toast (re de : String → Bool) (ids : List String) :
    ∀ e ∈ chatTraces re de ids,
      isSuccessToast e = false ∧ isErrorToast e = false ∧ isNavigate e = false := by
  intro e he
  rcases chatTraces_shape re de ids e he with ⟨k, rfl⟩ | ⟨j, rfl⟩ | ⟨j, rfl⟩ <;>
    exact ⟨rfl, rfl, rfl⟩

/-- Claim C5: during a bulk delete every requested id gets a store deletion
attempt (failures do not abort the loop), the selection set ends empty and
selection mode off, and when at least one id failed the aggregate notice is
a warning reporting the succeeded count out of the requested count, with no
success and no error toast anywhere in the trace. -/
theorem deleteSelectedItems_failure_spec (removeErr deleteErr : String → Bool)
    (cur : Option String) (ids preSel : List String) (preMode : Bool)
    (hne : ids ≠ []) :
    (∀ id ∈ ids, Event.storeDelete id ∈
      (deleteSelectedItems true removeErr deleteErr cur ids preSel preMode).events) ∧
    (deleteSelectedItems true removeErr deleteErr cur ids preSel preMode).selectedItems = [] ∧
    (deleteSelectedItems true removeErr deleteErr cur ids preSel preMode).selectionMode = false ∧
    (ids.filter deleteErr ≠ [] →
      Event.toast (Toast.warning ("Deleted " ++
          toString (ids.countP (fun id => !deleteErr id)) ++ " of " ++
          toString ids.length ++ " chats. " ++
          toString (ids.filter deleteErr).length ++ " failed.")) ∈
        (deleteSelectedItems true removeErr deleteErr cur ids preSel preMode).events ∧
      ∀ e ∈ (deleteSelectedItems true removeErr deleteErr cur ids preSel preMode).events,
        isSuccessToast e = false ∧ isErrorToast e = false) := by
  rw [deleteSelectedItems_eq removeErr deleteErr cur ids preSel preMode hne]
  refine ⟨?_, rfl, rfl, ?_⟩
  · intro id hid
    exact List.mem_append_left _
      (List.mem_append_left _ (storeDelete_mem_chatTraces _ _ _ _ hid))
  · intro herr
    have hwt : bulkToast deleteErr ids = Toast.warning ("Deleted " ++
        toString (ids.countP (fun id => !deleteErr id)) ++ " of " ++
        toString ids.length ++ " chats. " ++
        toString (ids.filter deleteErr).length ++ " failed.") := by
      unfold bulkToast
      rw [if_neg (fun hc => herr (List.length_eq_zero.mp hc))]
    rw [hwt]
    constructor
    · exact List.mem_append_left _ (List.mem_append_right _ (by simp))
    · intro e he
      rcases List.mem_append.mp he with h1 | h2
      · rcases List.mem_append.mp h1 with h3 | h4
        · have h := chatTraces_not_toast removeErr deleteErr ids e h3
          exact ⟨h.1, h.2.1⟩
        · rcases List.mem_cons.mp h4 with rfl | h5
          · exact ⟨rfl, rfl⟩
          · rcases List.mem_singleton.mp h5 with rfl
            exact ⟨rfl, rfl⟩
      · rcases hnav : (ids.any (fun id => !deleteErr id && decide (some id = cur))) with _ | _ <;>
          rw [hnav] at h2
        · cases h2
        · rcases List.mem_singleton.mp (by simpa using h2) with rfl
          exact ⟨rfl, rfl⟩

theorem deleteSelectedItems_failure_spec_witness :
    Event.toast (Toast.warning "Deleted 2 of 3 chats. 1 failed.") ∈
      (deleteSelectedItems true (fun _ => false) (fun id => id == "b") none
        ["a", "b", "c"] ["a", "b", "c"] true).events ∧
    (deleteSelectedItems true (fun _ => false) (fun id => id == "b") none
      ["a", "b", "c"] ["a", "b", "c"] true).selectedItems = [] ∧
    (deleteSelectedItems true (fun _ => false) (fun id => id == "b") none
      ["a", "b", "c"] ["a", "b", "c"] true).selectionMode = false := by
  have h := deleteSelectedItems_failure_spec (fun _ => false) (fun id => id == "b")
    none ["a", "b", "c"] ["a", "b", "c"] true (by decide)
  exact ⟨(h.2.2.2 (by decide)).1, h.2.1, h.2.2.1⟩

lemma countP_isNavigate_chatTraces (re de : String → Bool) (ids : List String) :
    (chatTraces re de ids).countP isNavigate = 0 := by
  rw [List.countP_eq_zero]
  intro e he
  have h := chatTraces_not_toast re de ids e he
  simp [h.2.2]

lemma bulkNav_cond_iff (de : String → Bool) (cur : Option String)
    (ids : List String) :
    (ids.any (fun id => !de id && decide (some id = cur))) = true ↔
      ∃ id ∈ ids, de id = false ∧ cur = some id := by
  rw [List.any_eq_true]
  constructor
  · rintro ⟨id, hid, hp⟩
    rw [Bool.and_eq_true] at hp
    refine ⟨id, hid, ?_, ?_⟩
    · cases h : de id
      · rfl
      · rw [h] at hp; cases hp.1
    · exact (of_decide_eq_true hp.2).symm
  · rintro ⟨id, hid, hde, hcur⟩
    refine ⟨id, hid, ?_⟩
    rw [Bool.and_eq_true, hde]
    exact ⟨rfl, decide_eq_true hcur.symm⟩

/-- Claim C6: in a bulk delete, navigation to root happens exactly once and
as the final step after the reload when the active entry's id was among the
successfully deleted ids, and never happens otherwise. -/
theorem deleteSelectedItems_navigation_spec (removeErr deleteErr : String → Bool)
    (cur : Option String) (ids preSel : List String) (preMode : Bool) :
    ((∃ id ∈ ids, deleteErr id = false ∧ cur = some id) →
      (deleteSelectedItems true removeErr deleteErr cur ids preSel preMode).events.countP
          isNavigate = 1 ∧
      ∃ pre, (deleteSelectedItems true removeErr deleteErr cur ids preSel
          preMode).events = pre ++ [Event.reload, Event.navigateRoot]) ∧
    ((∀ id ∈ ids, ¬(deleteErr id = false ∧ cur = some id)) →
      (deleteSelectedItems true removeErr deleteErr cur ids preSel preMode).events.countP
        isNavigate = 0) := by
  constructor
  · rintro hex
    have hne : ids ≠ [] := by
      rintro rfl
      obtain ⟨id, hid, -⟩ := hex
      cases hid
    have hany : (ids.any (fun id => !deleteErr id && decide (some id = cur))) = true :=
      (bulkNav_cond_iff deleteErr cur ids).mpr hex
    rw [deleteSelectedItems_eq removeErr deleteErr cur ids preSel preMode hne]
    simp only [hany, if_pos]
    constructor
    · rw [List.countP_append, List.countP_append,
        countP_isNavigate_chatTraces]
      rfl
    · refine ⟨chatTraces removeErr deleteErr ids ++
        [Event.toast (bulkToast deleteErr ids)], ?_⟩
      simp
  · intro hall
    rcases Decidable.em (ids = []) with rfl | hne
    · simp [deleteSelectedItems, storeDeleteIds, List.countP_nil]
    · have hany : (ids.any (fun id => !deleteErr id && decide (some id = cur))) = false := by
        cases h : (ids.any (fun id => !deleteErr id && decide (some id = cur)))
        · rfl
        · obtain ⟨id, hid, hde, hcur⟩ := (bulkNav_cond_iff deleteErr cur ids).mp h
          exact absurd ⟨hde, hcur⟩ (hall id hid)
      rw [deleteSelectedItems_eq removeErr deleteErr cur ids preSel preMode hne]
      simp only [hany]
      rw [if_neg (by simp)]
      rw [List.countP_append, List.countP_append,
        countP_isNavigate_chatTraces]
      rfl

theorem deleteSelectedItems_navigation_spec_witness :
    (deleteSelectedItems true (fun _ => false) (fun _ => false) (some "a")
      ["a", "b"] ["a", "b"] true).events.countP isNavigate = 1 := by
  have h := (deleteSelectedItems_navigation_spec (fun _ => false) (fun _ => false)
    (some "a") ["a", "b"] ["a", "b"] true).1
    ⟨"a", by decide, rfl, rfl⟩
  exact h.1

/-- Claim C8: a failure while removing the `snapshot:` side-cache entry is
logged only; the store deletion call is still issued, and whether the id's
deletion succeeds depends only on the store, not on the side-cache removal. -/
theorem deleteChat_side_cache_spec (removeErr deleteErr : String → Bool)
    (id : String) :
    Event.storeDelete id ∈ (deleteChat true removeErr deleteErr id).1 ∧
    (removeErr id = true →
      Event.logError id ∈ (deleteChat true removeErr deleteErr id).1) ∧
    (deleteChat true removeErr deleteErr id).2 = !deleteErr id := by
  refine ⟨storeDelete_mem_deleteChat removeErr deleteErr id, ?_,
    deleteChat_snd removeErr deleteErr id⟩
  intro hr
  simp [deleteChat, hr]

theorem deleteChat_side_cache_spec_witness :
    Event.storeDelete "a" ∈ (deleteChat true (fun _ => true) (fun _ => false) "a").1 ∧
    Event.logError "a" ∈ (deleteChat true (fun _ => true) (fun _ => false) "a").1 ∧
    (deleteChat true (fun _ => true) (fun _ => false) "a").2 = true := by
  have h := deleteChat_side_cache_spec (fun _ => true) (fun _ => false) "a"
  exact ⟨h.1, h.2.1 rfl, h.2.2⟩

/-- Claim C1 counterexample: with live selection `["a", "b"]` and a loaded
list containing only the entry `"a"`, the pending confirmation snapshots the
single resolved entry (ids `["a"]`), yet confirming issues store deletions
for `["a", "b"]` — the live selection set, not the snapshot. -/
theorem bulk_confirm_snapshot_counterexample :
    (handleBulkDeleteClick ["a", "b"] [itemA]).2 =
      some (DialogContent.bulkDelete [itemA]) ∧
    storeDeleteIds (bulkDeleteDialogConfirm true (fun _ => false) (fun _ => false)
        none ["a", "b"] true [itemA]).1.events = ["a", "b"] ∧
    [itemA].map (fun i => i.id) = ["a"] ∧
    (["a", "b"] : List String) ≠ ["a"] := by
  refine ⟨by decide, by decide, by decide, by decide⟩

/-- Claim C1 amended: acting on the pending bulk-delete confirmation submits
a copy of the live selection set as it stands at confirmation time — the
store deletions issued are exactly the live selected ids — and the snapshot
of resolved entries held in the pending confirmation has no influence on the
submission. -/
theorem bulk_confirm_uses_live_selection (removeErr deleteErr : String → Bool)
    (cur : Option String) (sel : List String) (mode : Bool)
    (pendingA pendingB : List ChatHistoryItem) (hne : sel ≠ []) :
    storeDeleteIds (bulkDeleteDialogConfirm true removeErr deleteErr cur sel mode
        pendingA).1.events = sel ∧
    bulkDeleteDialogConfirm true removeErr deleteErr cur sel mode pendingA =
      bulkDeleteDialogConfirm true removeErr deleteErr cur sel mode pendingB := by
  refine ⟨?_, rfl⟩
  simp only [bulkDeleteDialogConfirm]
  rw [deleteSelectedItems_eq removeErr deleteErr cur sel sel mode hne]
  rw [show (⟨chatTraces removeErr deleteErr sel ++
      [Event.toast (bulkToast deleteErr sel), Event.reload] ++
      (if sel.any (fun id => !deleteErr id && decide (some id = cur)) then
        [Event.navigateRoot] else []), [], false⟩ : BulkResult).events =
      chatTraces removeErr deleteErr sel ++
      [Event.toast (bulkToast deleteErr sel), Event.reload] ++
      (if sel.any (fun id => !deleteErr id && decide (some id = cur)) then
        [Event.navigateRoot] else []) from rfl]
  rw [storeDeleteIds_append, storeDeleteIds_append, storeDeleteIds_chatTraces]
  have h1 : storeDeleteIds [Event.toast (bulkToast deleteErr sel), Event.reload] = [] := rfl
  have h2 : storeDeleteIds
      (if sel.any (fun id => !deleteErr id && decide (some id = cur)) then
        [Event.navigateRoot] else []) = [] := by
    split
    · rfl
    · rfl
  rw [h1, h2]
  simp

theorem bulk_confirm_uses_live_selection_witness :
    storeDeleteIds (bulkDeleteDialogConfirm true (fun _ => false) (fun _ => false)
        none ["x", "y"] true [itemA]).1.events = ["x", "y"] :=
  (bulk_confirm_uses_live_selection (fun _ => false) (fun _ => false)
    none ["x", "y"] true [itemA] [] (by decide)).1

/-- Claim C7: requesting a bulk delete with an empty selection yields only an
informational toast, no store interaction and no pending confirmation; a
non-empty selection none of whose ids resolve against the loaded list yields
only an error toast, no store interaction and no pending confirmation. -/
theorem handleBulkDeleteClick_spec (selectedItems : List String)
    (list : List ChatHistoryItem) :
    (selectedItems = [] →
      handleBulkDeleteClick selectedItems list =
        ([Event.toast (Toast.info "Select at least one chat to delete")], none) ∧
      storeDeleteIds (handleBulkDeleteClick selectedItems list).1 = []) ∧
    (selectedItems ≠ [] → (∀ item ∈ list, item.id ∉ selectedItems) →
      handleBulkDeleteClick selectedItems list =
        ([Event.toast (Toast.error "Could not find selected chats")], none) ∧
      storeDeleteIds (handleBulkDeleteClick selectedItems list).1 = []) := by
  constructor
  · rintro rfl
    exact ⟨rfl, rfl⟩
  · intro hne hstale
    have hfil : list.filter (fun item => selectedItems.contains item.id) = [] := by
      rw [List.filter_eq_nil_iff]
      intro item hitem
      simpa using hstale item hitem
    have heq : handleBulkDeleteClick selectedItems list =
        ([Event.toast (Toast.error "Could not find selected chats")], none) := by
      unfold handleBulkDeleteClick
      rw [if_neg (fun hc => hne (List.length_eq_zero.mp hc)), hfil]
      rfl
    rw [heq]
    exact ⟨rfl, rfl⟩

theorem handleBulkDeleteClick_spec_witness :
    handleBulkDeleteClick [] [itemA] =
      ([Event.toast (Toast.info "Select at least one chat to delete")], none) ∧
    handleBulkDeleteClick ["ghost"] [itemA] =
      ([Event.toast (Toast.error "Could not find selected chats")], none) := by
  refine ⟨((handleBulkDeleteClick_spec [] [itemA]).1 rfl).1, ?_⟩
  exact ((handleBulkDeleteClick_spec ["ghost"] [itemA]).2 (by decide)
    (by intro item hitem; fin_cases hitem; decide)).1

lemma applyEvents_append (store disp : List ChatHistoryItem) (l1 l2 : List Event) :
    applyEvents store disp (l1 ++ l2) =
      applyEvents store (applyEvents store disp l1) l2 := by
  induction l1 generalizing disp with
  | nil => rfl
  | cons e rest ih => cases e <;> simp [applyEvents, ih]

lemma applyEvents_deleteChat (re de : String → Bool) (id : String)
    (store disp : List ChatHistoryItem) :
    applyEvents store disp (deleteChat true re de id).1 = disp := by
  cases hr : re id <;> simp [deleteChat, hr, applyEvents]

/-- Claim C9: when a single-item delete fails at the store, no success toast
is issued, an error toast is issued, a reload still happens, and the
displayed list afterwards is exactly the store view (so an entry still in
the store — in particular the one that failed to delete — still appears). -/
theorem deleteItem_failure_spec (removeErr deleteErr : String → Bool)
    (cur : Option String) (item : ChatHistoryItem)
    (store disp : List ChatHistoryItem) (hfail : deleteErr item.id = true) :
    (∀ e ∈ deleteItem true removeErr deleteErr cur item, isSuccessToast e = false) ∧
    Event.toast (Toast.error "Failed to delete conversation") ∈
      deleteItem true removeErr deleteErr cur item ∧
    Event.reload ∈ deleteItem true removeErr deleteErr cur item ∧
    applyEvents store disp (deleteItem true removeErr deleteErr cur item) =
      loadEntriesView store ∧
    (∀ entry ∈ store, truthy entry.urlId = true → truthy entry.description = true →
      entry ∈ applyEvents store disp (deleteItem true removeErr deleteErr cur item)) := by
  have hsnd : (deleteChat true removeErr deleteErr item.id).2 = false := by
    rw [deleteChat_snd, hfail]
    rfl
  have hevs : deleteItem true removeErr deleteErr cur item =
      (deleteChat true removeErr deleteErr item.id).1 ++
        [Event.toast (Toast.error "Failed to delete conversation"), Event.reload] := by
    unfold deleteItem
    rw [if_neg (by rw [hsnd]; simp)]
  rw [hevs]
  have happly : applyEvents store disp
      ((deleteChat true removeErr deleteErr item.id).1 ++
        [Event.toast (Toast.error "Failed to delete conversation"), Event.reload]) =
      loadEntriesView store := by
    rw [applyEvents_append, applyEvents_deleteChat]
    simp [applyEvents]
  refine ⟨?_, ?_, ?_, happly, ?_⟩
  · intro e he
    rcases List.mem_append.mp he with h1 | h2
    · rcases deleteChat_events_shape removeErr deleteErr item.id e h1 with
        ⟨k, rfl⟩ | ⟨j, rfl⟩ | ⟨j, rfl⟩ <;> rfl
    · rcases List.mem_cons.mp h2 with rfl | h3
      · rfl
      · rcases List.mem_singleton.mp h3 with rfl
        rfl
  · exact List.mem_append_right _ (by simp)
  · exact List.mem_append_right _ (by simp)
  · intro entry hmem hurl hdesc
    rw [happly]
    rw [loadEntriesView, List.mem_filter]
    exact ⟨hmem, by rw [hurl, hdesc]; rfl⟩

theorem deleteItem_failure_spec_witness :
    Event.toast (Toast.error "Failed to delete conversation") ∈
      deleteItem true (fun _ => false) (fun _ => true) none itemA ∧
    itemA ∈ applyEvents [itemA] []
      (deleteItem true (fun _ => false) (fun _ => true) none itemA) := by
  have h := deleteItem_failure_spec (fun _ => false) (fun _ => true) none itemA
    [itemA] [] rfl
  exact ⟨h.2.1, h.2.2.2.2 itemA (by decide) (by decide) (by decide)⟩
